import Mathlib

/-!
Shallow embedding of the Pomodoro timer (`src/main.py`) for checking the
natural-language specification against the code.

The embedding covers:
* the phase/session state machine of `PomodoroTimer.start_session`,
* the countdown loop of `PomodoroTimer.run_phase` (time as integer seconds
  since phase start, one polled event per tick),
* the progress computation of `PomodoroTimer._draw`,
* timestamp serialization (`str(datetime)`) and parsing
  (`strptime` with format `%Y-%m-%d %H:%M:%S.%f`) used by
  `DataStore.write` / `DataStore.read_all`,
* the stats aggregations `Stats.get_week` and `Stats.get_total`,
* `Tasks.toggle`.

Python floats are modelled by `ℚ` (exact arithmetic); machine integers do
not overflow in this program, so `Nat` is used throughout.
-/

set_option autoImplicit false

namespace Pymodoro

/-! ### Phase/session state machine (`PomodoroTimer.start_session`) -/

/-- The `Phase` enum of `main.py` (`WORK`, `SHORT_BREAK`, `LONG_BREAK`). -/
inductive Phase where
  | work
  | shortBreak
  | longBreak
deriving DecidableEq, Repr

/-- How one call of `run_phase` ends, as observed by `start_session`:
the phase counts down to zero (`done`), the user presses Skip (`skip`,
returned as `skipped=True`), or the user presses Stop / quits
(`stop`, returned as `exit_flag=True`). -/
inductive Outcome where
  | done
  | skip
  | stop
deriving DecidableEq, Repr

/-- The state `start_session` carries between phase runs: `count` is
`self.count`, and `pending` is true when the next phase to run is the
`SHORT_BREAK` of the current iteration of the inner `for` loop. -/
structure SState where
  count : Nat
  pending : Bool
deriving DecidableEq, Repr

/-- One phase event in a session trace: the phase that was started, its
configured duration in minutes, and how it ended. -/
structure PhaseEv where
  phase : Phase
  durMin : Nat
  outcome : Outcome
deriving DecidableEq, Repr

/-- The phase `start_session` runs next from state `s`, with its duration
and the successor state.  Mirrors the source: each `while` iteration first
increments `self.count`; if the incremented count is `>= sessions_per_cycle`
it runs a `LONG_BREAK` and then resets `self.count` to `0` (whether or not
the break was skipped); otherwise it runs `WORK` and then `SHORT_BREAK`. -/
def nextPhase (spc wt bt lb : Nat) (s : SState) : Phase × Nat × SState :=
  if s.pending then
    (Phase.shortBreak, bt, ⟨s.count, false⟩)
  else if spc ≤ s.count + 1 then
    (Phase.longBreak, lb, ⟨0, false⟩)
  else
    (Phase.work, wt, ⟨s.count + 1, true⟩)

/-- Run `start_session` against a script of phase outcomes, one outcome per
`run_phase` call, starting from state `s`.  A `stop` outcome terminates the
session (`exit_flag` breaks out of the loops); an exhausted script ends the
observation.  Returns the trace of phases started. -/
def runFrom (spc wt bt lb : Nat) : List Outcome → SState → List PhaseEv
  | [], _ => []
  | o :: rest, s =>
    let pds := nextPhase spc wt bt lb s
    match o with
    | Outcome.stop => [⟨pds.1, pds.2.1, Outcome.stop⟩]
    | o => ⟨pds.1, pds.2.1, o⟩ :: runFrom spc wt bt lb rest pds.2.2

/-- The value of `self.count` (together with the position inside the inner
`for` loop) after consuming a script of outcomes.  On `stop` the session
ends and the state is no longer advanced. -/
def stateAfter (spc wt bt lb : Nat) : List Outcome → SState → SState
  | [], s => s
  | o :: rest, s =>
    let pds := nextPhase spc wt bt lb s
    match o with
    | Outcome.stop => s
    | _ => stateAfter spc wt bt lb rest pds.2.2

/-- A session starts with `self.count = 0` and the `for` loop not yet
entered. -/
def initialSState : SState := ⟨0, false⟩

/-- The `'type'` field `start_session` writes for a completed phase. -/
def recType : Phase → String
  | Phase.work => "work"
  | _ => "break"

/-- The phase/duration projection of a trace (what ran, ignoring how each
phase ended). -/
def phasesOf (tr : List PhaseEv) : List (Phase × Nat) :=
  tr.map (fun e => (e.phase, e.durMin))

/-- The `(type, duration-in-seconds)` pairs of the records `start_session`
writes for a trace: one record per phase that was not skipped and not
interrupted by stop (`if not skipped: self.store.write(...)`, with
`duration = dur * 60`). -/
def recordsOf (tr : List PhaseEv) : List (String × Nat) :=
  tr.filterMap (fun e =>
    match e.outcome with
    | Outcome.done => some (recType e.phase, e.durMin * 60)
    | _ => none)

/-- Replacing `skip` by `done` in a script (used to compare a skipped run
with the corresponding fully completed run). -/
def scrub : Outcome → Outcome
  | Outcome.skip => Outcome.done
  | o => o

/-! ### Countdown loop (`PomodoroTimer.run_phase`)

The loop polls events and redraws; on every non-paused poll it recomputes
`remaining = max(0, duration * 60 - int((now - start).total_seconds()))`.
We model one polled event per tick, a tick being the pair of the integer
number of seconds elapsed since phase start (the value of
`int((now - start).total_seconds())` at that poll) and the event seen by
that poll. -/

/-- An event observed by one iteration of the `run_phase` loop. -/
inductive PEv where
  | quiet
  | togglePause
  | pressSkip
  | pressStop
deriving DecidableEq, Repr

/-- The mutable state of the `run_phase` loop: `paused`, `remaining`
(seconds), and `auto_t` (the wall-clock second at which the auto-continue
grace timer was armed, `None` when unarmed). -/
structure PState where
  paused : Bool
  remaining : Nat
  autoT : Option Nat
deriving DecidableEq, Repr

/-- How a modelled `run_phase` run ends.  `stoppedAt` is the
`return 0, False, True` path (Stop button / ESC / QUIT), `skippedAt t rem`
the `skipped = True` path returning `(rem, True, False)`, `finishedAt t rem`
the normal loop exit returning `(rem, False, False)`, and `ranOut s` means
the tick script ended while the loop was still running. -/
inductive PhaseExit where
  | stoppedAt (t : Nat)
  | skippedAt (t : Nat) (rem : Nat)
  | finishedAt (t : Nat) (rem : Nat)
  | ranOut (s : PState)
deriving DecidableEq, Repr

/-- The `if auto_t and (datetime.now() - auto_t).total_seconds() >= 3: break`
test at the bottom of the loop. -/
def autoFires (aT : Option Nat) (t : Nat) : Bool :=
  match aT with
  | some t0 => decide (3 ≤ t - t0)
  | none => false

/-- The `while remaining > 0 and running` loop of `run_phase`, consuming one
tick per iteration.  Event handling comes first (Stop returns immediately;
Skip sets `skipped`/`running` and falls through to the recompute; a pause
toggle flips `paused` and clears `auto_t`); a non-paused iteration then
recomputes `remaining` from the wall clock and clears `running` when it
reaches zero; finally the auto-continue grace test may `break`.  The loop
continues exactly when the recomputed `remaining` is nonzero (if it is zero,
either `running` was cleared or the `remaining > 0` guard fails). -/
def runPhaseLoop (durSec : Nat) (auto : Bool) :
    List (Nat × PEv) → PState → PhaseExit
  | [], s => PhaseExit.ranOut s
  | (t, ev) :: rest, s =>
    match ev with
    | PEv.pressStop => PhaseExit.stoppedAt t
    | PEv.pressSkip =>
        PhaseExit.skippedAt t (if s.paused then s.remaining else durSec - t)
    | PEv.togglePause =>
        let p := !s.paused
        let r := if p then s.remaining else durSec - t
        let aT2 : Option Nat := if r = 0 && !p && auto then some t else none
        if autoFires aT2 t then PhaseExit.finishedAt t r
        else if r = 0 then PhaseExit.finishedAt t r
        else runPhaseLoop durSec auto rest ⟨p, r, aT2⟩
    | PEv.quiet =>
        let p := s.paused
        let r := if p then s.remaining else durSec - t
        let aT2 : Option Nat :=
          if r = 0 && !p && s.autoT.isNone && auto then some t else s.autoT
        if autoFires aT2 t then PhaseExit.finishedAt t r
        else if r = 0 then PhaseExit.finishedAt t r
        else runPhaseLoop durSec auto rest ⟨p, r, aT2⟩

/-- `run_phase` for a phase of `durMin` minutes: `remaining` starts at
`durMin * 60`; when that is already zero the `while` guard fails at once and
the call returns `(0, False, False)` without consuming a single tick. -/
def runPhase (durMin : Nat) (auto : Bool) (ticks : List (Nat × PEv)) :
    PhaseExit :=
  if durMin * 60 = 0 then PhaseExit.finishedAt 0 0
  else runPhaseLoop (durMin * 60) auto ticks ⟨false, durMin * 60, none⟩

/-- The display-progress computation of `PomodoroTimer._draw`:
`progress = 1 - (remaining / (duration * 60)) if duration > 0 else 0`. -/
def progress (durationMin remaining : Nat) : ℚ :=
  if 0 < durationMin then 1 - (remaining : ℚ) / ((durationMin : ℚ) * 60)
  else 0

/-! ### Timestamps and the log store (`DataStore`)

`start_session` serializes the start timestamp with Python `str(datetime)`:
`YYYY-MM-DD HH:MM:SS.ffffff`, where the `.ffffff` part is *omitted when the
microsecond component is zero*.  `DataStore.read_all` parses it back with
`datetime.strptime(e['start'], '%Y-%m-%d %H:%M:%S.%f')`, whose `%f`
directive requires a fractional part of one to six digits. -/

/-- A `datetime` value, to microsecond precision. -/
structure Timestamp where
  year : Nat
  month : Nat
  day : Nat
  hour : Nat
  minute : Nat
  second : Nat
  usec : Nat
deriving DecidableEq, Repr

/-- Zero-pad the decimal representation of `n` on the left to width `w`. -/
def padLeft (w n : Nat) : String :=
  let s := toString n
  String.mk (List.replicate (w - s.length) '0') ++ s

/-- Python `str(datetime)`: `isoformat` with a space separator.  The
fractional-seconds part is printed as six zero-padded digits, and omitted
entirely when `usec = 0`. -/
def pyStrDatetime (t : Timestamp) : String :=
  padLeft 4 t.year ++ "-" ++ padLeft 2 t.month ++ "-" ++ padLeft 2 t.day
    ++ " " ++ padLeft 2 t.hour ++ ":" ++ padLeft 2 t.minute ++ ":"
    ++ padLeft 2 t.second
    ++ (if t.usec = 0 then "" else "." ++ padLeft 6 t.usec)

/-- The digits of a numeric field, read as a natural number. -/
def digitsToNat (cs : List Char) : Nat :=
  cs.foldl (fun a c => a * 10 + (c.toNat - 48)) 0

/-- All characters are decimal digits. -/
def allDigits (cs : List Char) : Bool :=
  cs.all (fun c => c.isDigit)

/-- The slice of `n` characters starting at position `i`. -/
def sliceAt (cs : List Char) (i n : Nat) : List Char :=
  (cs.drop i).take n

/-- The fixed separators of the format `%Y-%m-%d %H:%M:%S`. -/
def sepOk (cs : List Char) : Bool :=
  (cs.get? 4 == some '-') && (cs.get? 7 == some '-')
    && (cs.get? 10 == some ' ') && (cs.get? 13 == some ':')
    && (cs.get? 16 == some ':')

/-- The range validation `strptime` applies to the parsed fields. -/
def rangesOk (t : Timestamp) : Bool :=
  decide (1 ≤ t.month) && decide (t.month ≤ 12) && decide (1 ≤ t.day)
    && decide (t.day ≤ 31) && decide (t.hour ≤ 23) && decide (t.minute ≤ 59)
    && decide (t.second ≤ 59)

/-- `datetime.strptime(s, '%Y-%m-%d %H:%M:%S.%f')`: four year digits,
two-digit month/day/hour/minute/second with the fixed separators, then a
mandatory `.` followed by one to six digits, which `%f` right-pads to
microseconds.  Any leftover input or a missing fractional part is an error
(`None`). -/
def strptimeMicro (s : String) : Option Timestamp :=
  let cs := s.toList
  let frac := cs.drop 20
  let ok := sepOk cs && (cs.get? 19 == some '.')
    && decide (1 ≤ frac.length) && decide (frac.length ≤ 6)
    && allDigits (sliceAt cs 0 4) && allDigits (sliceAt cs 5 2)
    && allDigits (sliceAt cs 8 2) && allDigits (sliceAt cs 11 2)
    && allDigits (sliceAt cs 14 2) && allDigits (sliceAt cs 17 2)
    && allDigits frac
  if ok then
    let t : Timestamp :=
      ⟨digitsToNat (sliceAt cs 0 4), digitsToNat (sliceAt cs 5 2),
       digitsToNat (sliceAt cs 8 2), digitsToNat (sliceAt cs 11 2),
       digitsToNat (sliceAt cs 14 2), digitsToNat (sliceAt cs 17 2),
       digitsToNat frac * 10 ^ (6 - frac.length)⟩
    if rangesOk t then some t else none
  else none

/-- A session record as `start_session` builds it, with the `start`
timestamp still a `datetime`.  (`end` is written but never parsed back to a
`datetime` by `read_all`, so it stays a string here.) -/
structure Record where
  start : Timestamp
  endStr : String
  duration : Nat
  type : String
  task : Option String
  tags : List String
deriving DecidableEq, Repr

/-- One line of the log file after `json.dumps`: the same fields with the
`start` timestamp serialized to a string. -/
structure WireRecord where
  start : String
  endStr : String
  duration : Nat
  type : String
  task : Option String
  tags : List String
deriving DecidableEq, Repr

/-- Serialization performed by `start_session` (`'start': str(start)`)
before handing the dict to `DataStore.write`. -/
def toWire (r : Record) : WireRecord :=
  ⟨pyStrDatetime r.start, r.endStr, r.duration, r.type, r.task, r.tags⟩

/-- One line of the log file as `read_all` sees it, classified by which of
the distinct Python behaviours its body hits:
* `notJson`: text that `json.loads` rejects (`JSONDecodeError`);
* `nonObject`: valid JSON that is not an object — a list, `null`, a number
  or a string — so `e['start']` raises `TypeError`;
* `objMissingStart`: a JSON object with no `'start'` key, so `e['start']`
  raises `KeyError`;
* `objNonStringStart`: a JSON object whose `'start'` value is not a
  string, so `strptime` raises `TypeError`;
* `obj`: a JSON object with a string `'start'` and the record fields. -/
inductive LogLine where
  | notJson (raw : String)
  | nonObject (raw : String)
  | objMissingStart
  | objNonStringStart
  | obj (w : WireRecord)
deriving DecidableEq, Repr

/-- An exception that escapes `read_all`'s
`except (json.JSONDecodeError, ValueError)` clause: `KeyError` and
`TypeError` are caught by neither. -/
inductive PyError where
  | keyError
  | typeError
deriving DecidableEq, Repr

/-- The per-line body of `read_all`.  `json.loads` failures and `strptime`
`ValueError`s (a string `'start'` in the wrong format) are caught and skip
the line (`ok none`); `KeyError`/`TypeError` from a valid-JSON non-record
line are *not* in the `except` clause and propagate (`error`). -/
def parseLine : LogLine → Except PyError (Option Record)
  | LogLine.notJson _ => Except.ok none
  | LogLine.nonObject _ => Except.error PyError.typeError
  | LogLine.objMissingStart => Except.error PyError.keyError
  | LogLine.objNonStringStart => Except.error PyError.typeError
  | LogLine.obj w =>
      Except.ok
        ((strptimeMicro w.start).map
          (fun ts => ⟨ts, w.endStr, w.duration, w.type, w.task, w.tags⟩))

namespace DataStore

/-- `DataStore.write`: append one serialized record to the log file. -/
def write (lines : List LogLine) (r : Record) : List LogLine :=
  lines ++ [LogLine.obj (toWire r)]

/-- `DataStore.read_all`: the `for line in f` loop.  A caught failure
`continue`s with the next line; a parsed record is appended to `rows`; an
uncaught `KeyError`/`TypeError` aborts the whole call (and with it any
stats computation built on it). -/
def readAll : List LogLine → Except PyError (List Record)
  | [] => Except.ok []
  | l :: ls =>
    match parseLine l with
    | Except.error e => Except.error e
    | Except.ok none => readAll ls
    | Except.ok (some r) => (readAll ls).map (fun rs => r :: rs)

end DataStore

/-! ### Stats aggregation (`Stats.get_week`, `Stats.get_total`) -/

/-- A calendar date, `datetime.date`-style, ordered lexicographically. -/
abbrev Date := Nat × Nat × Nat

/-- `start.date()`. -/
def dateOf (t : Timestamp) : Date :=
  (t.year, t.month, t.day)

/-- `date` comparison `a <= b` (lexicographic, as for `datetime.date`). -/
def dateLe (a b : Date) : Bool :=
  decide (a.1 < b.1)
    || (decide (a.1 = b.1)
        && (decide (a.2.1 < b.2.1)
            || (decide (a.2.1 = b.2.1) && decide (a.2.2 ≤ b.2.2))))

/-- The list comprehension of `get_week`: work records whose date is on or
after the week start `ws`. -/
def weekWork (log : List Record) (ws : Date) : List Record :=
  log.filter (fun r => r.type == "work" && dateLe ws (dateOf r.start))

namespace Stats

/-- The `wd[d]['hours']` accumulated by `get_week` for the day `d`: the loop
adds `s['duration'] / 3600` to the day's entry for every record of that
day. -/
def weekHours (log : List Record) (ws d : Date) : ℚ :=
  (weekWork log ws).foldl
    (fun acc r =>
      if dateOf r.start = d then acc + (r.duration : ℚ) / 3600 else acc)
    0

/-- `Stats.get_total`: `sum(s['duration'] for s in work) / 3600, len(work)`
over `work = [s for s in store.read_all() if s['type'] == 'work']`. -/
def getTotal (log : List Record) : ℚ × Nat :=
  let work := log.filter (fun r => r.type == "work")
  let secs : Nat := (work.map (fun r => r.duration)).sum
  ((secs : ℚ) / 3600, work.length)

end Stats

/-- The successive values taken by `wd[d]['hours']` as `get_week`'s loop
walks the (already filtered) record list: the accumulator starts at `0` and
each record of day `d` adds `duration / 3600` to it. -/
def weekHoursSteps (d : Date) : List Record → ℚ → List ℚ
  | [], acc => [acc]
  | r :: rs, acc =>
      acc :: weekHoursSteps d rs
        (if dateOf r.start = d then acc + (r.duration : ℚ) / 3600 else acc)

/-- Reference (spec-side) computation: the day's durations summed as
integer seconds. -/
def daySeconds (d : Date) : List Record → Nat
  | [] => 0
  | r :: rs => (if dateOf r.start = d then r.duration else 0) + daySeconds d rs

/-- Reference (spec-side) computation: the work durations summed as integer
seconds. -/
def workSeconds : List Record → Nat
  | [] => 0
  | r :: rs => (if r.type = "work" then r.duration else 0) + workSeconds rs

/-- Reference (spec-side) computation: the number of work records. -/
def workCount : List Record → Nat
  | [] => 0
  | r :: rs => (if r.type = "work" then 1 else 0) + workCount rs

/-! ### Task list (`Tasks.toggle`) -/

/-- One task value, as stored in the tasks JSON document.  `completed` is
optional because `toggle` reads it with `.get('completed', False)`. -/
structure Task where
  title : String
  completed : Option Bool
  created : String
deriving DecidableEq, Repr

/-- The in-place update `toggle` performs on the found task:
`completed = not tasks[tid].get('completed', False)`; `title` and `created`
are untouched. -/
def flipTask (td : Task) : Task :=
  { td with completed := some (!(td.completed.getD false)) }

namespace Tasks

/-- `Tasks.toggle`: if `tid` is a key of the task dict, flip that task's
`completed` flag and save; otherwise do nothing.  The task dict is modelled
as an association list (insertion order preserved, keys unique in practice);
the returned `Bool` records whether `save()` ran. -/
def toggle (ts : List (String × Task)) (tid : String) :
    List (String × Task) × Bool :=
  if ts.any (fun kv => kv.1 == tid) then
    (ts.map (fun kv => if kv.1 == tid then (kv.1, flipTask kv.2) else kv),
     true)
  else (ts, false)

end Tasks

/-! ### Concrete fixtures used by the closed theorems below -/

/-- A timestamp whose microsecond component is zero. -/
def tsWhole : Timestamp := ⟨2024, 5, 1, 12, 0, 0, 0⟩

/-- A timestamp with a nonzero microsecond component. -/
def tsMicro : Timestamp := ⟨2024, 5, 1, 12, 0, 0, 123456⟩

/-- A work record whose start timestamp has `usec = 0`. -/
def recWhole : Record :=
  ⟨tsWhole, "2024-05-01 12:25:00", 1500, "work", none, []⟩

/-- A work record whose start timestamp has `usec = 123456`. -/
def recMicro : Record :=
  ⟨tsMicro, "2024-05-01 12:25:00.123456", 1500, "work", none, []⟩

/-- A one-second work record on Monday 2024-05-06. -/
def recOneSec : Record :=
  ⟨⟨2024, 5, 6, 9, 0, 0, 1⟩, "2024-05-06 09:00:01.000001", 1, "work",
   none, []⟩

/-- A log holding two one-second work records on the same day. -/
def twoSecLog : List Record := [recOneSec, recOneSec]

/-- The Monday starting the week of `recOneSec`. -/
def monday : Date := (2024, 5, 6)

/-- A log line that is not JSON at all: `json.loads` raises
`JSONDecodeError`, which `read_all` catches. -/
def rawNotJson : String := "oops not json"

/-- A valid-JSON log line that is a list rather than an object. -/
def rawList : String := "[]"

/-- A wire record whose start string has no fractional-seconds part:
`strptime` raises `ValueError`, which `read_all` catches. -/
def wireBadStart : WireRecord :=
  ⟨"2024-05-01 12:00:00", "2024-05-01 12:25:00", 1500, "work", none, []⟩

/-- Task fixtures for the `Tasks.toggle` witness. -/
def taskA : Task := ⟨"alpha", some false, "2024-05-01 09:00:00"⟩

/-- A second, completed task. -/
def taskB : Task := ⟨"beta", some true, "2024-05-02 09:00:00"⟩

/-- A task store that does not contain the key `keyA`. -/
def storeAbsent : List (String × Task) := [("b", taskB)]

/-- A task store that contains both `keyA` and `keyB`. -/
def storePresent : List (String × Task) := [("a", taskA), ("b", taskB)]

/-- The task id toggled in the witness. -/
def keyA : String := "a"

/-- The other task id in the witness. -/
def keyB : String := "b"

/-- The tick script of the pause scenario: poll at 0 s and 5 s, pause at
10 s, poll while paused at 20 s, resume at 40 s, then poll at 41 s, 59 s
and 60 s. -/
def pauseTicks : List (Nat × PEv) :=
  [(0, PEv.quiet), (5, PEv.quiet), (10, PEv.togglePause), (20, PEv.quiet),
   (40, PEv.togglePause), (41, PEv.quiet), (59, PEv.quiet), (60, PEv.quiet)]

/-- The pause scenario cut right after the pause press (10 s in). -/
def pausedPrefix : List (Nat × PEv) :=
  [(0, PEv.quiet), (5, PEv.quiet), (10, PEv.togglePause)]

/-- The pause scenario cut right after the resume press (40 s in). -/
def resumedPrefix : List (Nat × PEv) :=
  [(0, PEv.quiet), (5, PEv.quiet), (10, PEv.togglePause), (20, PEv.quiet),
   (40, PEv.togglePause)]

/-- Two hundred once-per-second quiet polls. -/
def quietTicks : List (Nat × PEv) :=
  (List.range 200).map (fun t => (t, PEv.quiet))

/-- Dictionary lookup `self.tasks[tid]` / membership `tid in self.tasks` on
the association-list model of the tasks document. -/
def Tasks.find (ts : List (String × Task)) (tid : String) : Option Task :=
  match ts with
  | [] => none
  | kv :: rest => if kv.1 == tid then some kv.2 else Tasks.find rest tid

/-!
## Theorems

One theorem per claim of the specification review, with helper lemmas. -/

/-- Helper: an id that `Tasks.find` misses is not a key of the store. -/
theorem any_eq_false_of_find_none {ts : List (String × Task)} {tid : String}
    (h : Tasks.find ts tid = none) :
    ts.any (fun kv => kv.1 == tid) = false := by
  induction ts with
  | nil => rfl
  | cons kv rest ih =>
    by_cases hk : kv.1 = tid
    · simp [Tasks.find, hk] at h
    · simp only [Tasks.find] at h
      rw [if_neg (by simp [hk])] at h
      simp [List.any_cons, hk, ih h]

/-- Helper: an id that `Tasks.find` hits is a key of the store. -/
theorem any_eq_true_of_find_some {ts : List (String × Task)}
    {tid : String} {td : Task} (h : Tasks.find ts tid = some td) :
    ts.any (fun kv => kv.1 == tid) = true := by
  induction ts with
  | nil => simp [Tasks.find] at h
  | cons kv rest ih =>
    by_cases hk : kv.1 = tid
    · simp [List.any_cons, hk]
    · simp only [Tasks.find] at h
      rw [if_neg (by simp [hk])] at h
      simp [List.any_cons, ih h]

/-- Helper: after the `toggle` map, looking up the toggled id yields the
flipped task. -/
theorem find_map_flip (ts : List (String × Task)) (tid : String) :
    Tasks.find
        (ts.map (fun kv => if kv.1 == tid then (kv.1, flipTask kv.2) else kv))
        tid
      = (Tasks.find ts tid).map flipTask := by
  induction ts with
  | nil => rfl
  | cons kv rest ih =>
    by_cases hk : kv.1 = tid
    · simp [Tasks.find, hk, ih]
    · simp only [List.map_cons]
      rw [if_neg (by simp [hk])]
      simp only [Tasks.find]
      rw [if_neg (by simp [hk]), if_neg (by simp [hk])]
      exact ih

/-- Helper: after the `toggle` map, looking up any other id is unchanged. -/
theorem find_map_other (ts : List (String × Task)) (tid k : String)
    (h : k ≠ tid) :
    Tasks.find
        (ts.map (fun kv => if kv.1 == tid then (kv.1, flipTask kv.2) else kv))
        k
      = Tasks.find ts k := by
  induction ts with
  | nil => rfl
  | cons kv rest ih =>
    by_cases hk : kv.1 = tid
    · have hk2 : ¬ kv.1 = k := fun hkk => h (hkk.symm.trans hk)
      simp only [List.map_cons]
      rw [if_pos (by simp [hk])]
      simp only [Tasks.find]
      rw [if_neg (by simp [hk2]), if_neg (by simp [hk2])]
      exact ih
    · simp only [List.map_cons]
      rw [if_neg (by simp [hk])]
      by_cases hk2 : kv.1 = k
      · simp [Tasks.find, hk2]
      · simp only [Tasks.find]
        rw [if_neg (by simp [hk2]), if_neg (by simp [hk2])]
        exact ih

/-- C10: `Tasks.toggle` on an absent id leaves the store untouched and does
not save; on a present id it flips exactly that task's `completed` flag,
keeps its `title` and `created`, leaves every other id's entry unchanged,
and saves. -/
theorem toggle_frame_conditions
    (ts1 ts2 : List (String × Task)) (tid k : String) (td : Task)
    (h0 : Tasks.find ts1 tid = none)
    (h1 : Tasks.find ts2 tid = some td)
    (h2 : k ≠ tid) :
    Tasks.toggle ts1 tid = (ts1, false)
    ∧ (Tasks.toggle ts2 tid).2 = true
    ∧ Tasks.find (Tasks.toggle ts2 tid).1 tid
        = some ⟨td.title, some (!(td.completed.getD false)), td.created⟩
    ∧ Tasks.find (Tasks.toggle ts2 tid).1 k = Tasks.find ts2 k := by
  refine ⟨?_, ?_, ?_, ?_⟩
  · simp [Tasks.toggle, any_eq_false_of_find_none h0]
  · simp [Tasks.toggle, any_eq_true_of_find_some h1]
  · unfold Tasks.toggle
    rw [if_pos (any_eq_true_of_find_some h1)]
    show Tasks.find _ tid = _
    rw [find_map_flip, h1]
    rfl
  · unfold Tasks.toggle
    rw [if_pos (any_eq_true_of_find_some h1)]
    exact find_map_other ts2 tid k h2

/-- C1: refuted by the code.  With `sessions_until_long = 4` and every phase
completing naturally, `start_session` runs only three work sessions (each
followed by a short break) before the long break — the phase sequence of the
first cycle is `W, SB, W, SB, W, SB, LB` and the records logged are three
work records of 1500 s and four break records (3 × 300 s + 1 × 900 s), not
the four work records the claim requires.  The counter is incremented and
compared against `sessions_per_cycle` *before* the cycle's work phase runs,
so the Nth work session is replaced by the long break; with
`sessions_until_long = 1` no work phase ever runs.  Only the reset-to-zero
part of the claim holds (`self.count = 0` after the long break). -/
theorem long_break_preempts_final_work_session :
    phasesOf (runFrom 4 25 5 15 (List.replicate 7 Outcome.done) initialSState)
      = [(Phase.work, 25), (Phase.shortBreak, 5), (Phase.work, 25),
         (Phase.shortBreak, 5), (Phase.work, 25), (Phase.shortBreak, 5),
         (Phase.longBreak, 15)]
    ∧ recordsOf (runFrom 4 25 5 15 (List.replicate 7 Outcome.done)
          initialSState)
      = [("work", 1500), ("break", 300), ("work", 1500), ("break", 300),
         ("work", 1500), ("break", 300), ("break", 900)]
    ∧ ((recordsOf (runFrom 4 25 5 15 (List.replicate 7 Outcome.done)
          initialSState)).filter (fun p => p.1 == "work")).length = 3
    ∧ stateAfter 4 25 5 15 (List.replicate 7 Outcome.done) initialSState
      = ⟨0, false⟩
    ∧ phasesOf (runFrom 1 25 5 15 (List.replicate 2 Outcome.done)
          initialSState)
      = [(Phase.longBreak, 15), (Phase.longBreak, 15)] := by
  decide

/-- C2: replacing any number of `skip` outcomes by natural completions
leaves the phase sequence (phases and their durations) and the
`self.count` state of `start_session` unchanged — in particular a skipped
work phase advances the cycle exactly as a completed one — while the
records written under the skipping script form a sublist of the records of
the fully completed script (only the skipped phases' writes are
suppressed). -/
theorem skip_advances_exactly_like_completion
    (spc wt bt lb : Nat) (script : List Outcome) (s : SState) :
    phasesOf (runFrom spc wt bt lb script s)
      = phasesOf (runFrom spc wt bt lb (script.map scrub) s)
    ∧ stateAfter spc wt bt lb script s
      = stateAfter spc wt bt lb (script.map scrub) s
    ∧ List.Sublist (recordsOf (runFrom spc wt bt lb script s))
        (recordsOf (runFrom spc wt bt lb (script.map scrub) s)) := by
  induction script generalizing s with
  | nil => exact ⟨rfl, rfl, List.Sublist.refl _⟩
  | cons o rest ih =>
    obtain ⟨h1, h2, h3⟩ := ih (nextPhase spc wt bt lb s).2.2
    cases o with
    | done =>
      exact ⟨congrArg (List.cons _) h1, h2, h3.cons₂ _⟩
    | skip =>
      exact ⟨congrArg (List.cons _) h1, h2, h3.cons _⟩
    | stop => exact ⟨rfl, rfl, List.Sublist.refl _⟩

/-- C3: refuted by the code.  Pausing does freeze the displayed countdown
(after pausing at 10 s into a 60-second phase the state holds
`remaining = 55`), but `run_phase` never rebases the phase start time, so
on resume at 40 s the next recompute yields `remaining = 20`, not the 55
the countdown was frozen at — the 30 paused seconds are deducted — and the
phase finishes at wall-clock 60 s, the bare configured duration, not
`duration + total_paused_time = 90 s`. -/
theorem pause_time_is_lost :
    runPhaseLoop 60 false pausedPrefix ⟨false, 60, none⟩
      = PhaseExit.ranOut ⟨true, 55, none⟩
    ∧ runPhaseLoop 60 false resumedPrefix ⟨false, 60, none⟩
      = PhaseExit.ranOut ⟨false, 20, none⟩
    ∧ runPhase 1 false pauseTicks = PhaseExit.finishedAt 60 0
    ∧ (20 : Nat) ≠ 55
    ∧ (60 : Nat) ≠ 60 + 30 := by
  decide

/-- Helper for C4: the `auto_continue` flag has no influence whatsoever on
the result of the `run_phase` loop: the loop exits the moment a non-paused
recompute reaches zero (`running = False` plus the `remaining > 0` guard),
so the armed grace timer can never reach its 3-second `break`. -/
theorem runPhaseLoop_auto_irrelevant (durSec : Nat)
    (ticks : List (Nat × PEv)) :
    ∀ s : PState,
      runPhaseLoop durSec true ticks s = runPhaseLoop durSec false ticks s := by
  induction ticks with
  | nil => intro s; rfl
  | cons te rest ih =>
    intro s
    obtain ⟨t, ev⟩ := te
    cases ev with
    | pressStop => rfl
    | pressSkip => rfl
    | togglePause =>
      simp only [runPhaseLoop]
      cases hp : s.paused with
      | false => by_cases hs : s.remaining = 0 <;> simp [hs, autoFires, ih]
      | true =>
        by_cases hd : durSec - t = 0 <;>
          simp [hd, autoFires, Nat.sub_self, ih]
    | quiet =>
      simp only [runPhaseLoop]
      cases hp : s.paused with
      | true => rcases hO : s.autoT with _ | t0 <;> simp [hO, autoFires, ih]
      | false =>
        rcases hO : s.autoT with _ | t0 <;>
          by_cases hd : durSec - t = 0 <;>
            simp [hO, hd, autoFires, Nat.sub_self, ih]

/-- C4: refuted by the code.  There is no inter-phase suspension at all:
the result of the countdown loop is identical for `auto_continue` true and
false (first conjunct, for every tick script and every state), and a phase
that completes at 60 s returns right there even though 139 further input
polls were available — `start_session` then starts the next phase
immediately, never awaiting a "proceed" signal. -/
theorem no_await_between_phases (durSec : Nat) (ticks : List (Nat × PEv))
    (s : PState) :
    runPhaseLoop durSec true ticks s = runPhaseLoop durSec false ticks s
    ∧ runPhase 1 false quietTicks = PhaseExit.finishedAt 60 0
    ∧ runPhase 1 true quietTicks = PhaseExit.finishedAt 60 0 := by
  exact ⟨runPhaseLoop_auto_irrelevant durSec ticks s, by decide, by decide⟩

/-- Counterexample for C5: for a zero-length phase the code computes a
display progress of `0`, not the `1` the claim prescribes
(`... if duration > 0 else 0`). -/
theorem zero_duration_progress_is_zero_not_one :
    progress 0 300 = 0 ∧ progress 0 300 ≠ 1 := by
  decide

/-- C5 (amended): a phase of 0 minutes completes immediately — the
`while remaining > 0` guard fails before a single poll, and `run_phase`
returns `(0, False, False)` — and the display progress of a zero-length
phase is the defined value `0` (no division is evaluated), not `1`. -/
theorem zero_duration_completes_with_progress_zero :
    (∀ remaining : Nat, progress 0 remaining = 0)
    ∧ (∀ (auto : Bool) (ticks : List (Nat × PEv)),
        runPhase 0 auto ticks = PhaseExit.finishedAt 0 0) := by
  exact ⟨fun r => by simp [progress], fun auto ticks => by simp [runPhase]⟩

/-- C6: refuted by the code.  `str(datetime)` omits the `.ffffff` part when
the microsecond component is zero, and `strptime` with `%Y-%m-%d %H:%M:%S.%f`
then rejects the line, so a record whose start timestamp has `usec = 0`
is silently dropped on re-read: the write/read round trip loses it.  A
record with a nonzero microsecond field round-trips intact. -/
theorem microsecond_zero_record_is_dropped :
    DataStore.readAll (DataStore.write [] recWhole) = Except.ok []
    ∧ ([] : List Record) ≠ [recWhole]
    ∧ pyStrDatetime tsWhole = "2024-05-01 12:00:00"
    ∧ strptimeMicro (pyStrDatetime tsWhole) = none
    ∧ strptimeMicro (pyStrDatetime tsMicro) = some tsMicro
    ∧ DataStore.readAll (DataStore.write [] recMicro) = Except.ok [recMicro] := by
  exact ⟨rfl, by decide, by decide, by decide, by decide, rfl⟩

/-- Helper for C7: folding the per-record `+ duration / 3600` update over a
record list equals a single division of the summed integer seconds. -/
theorem weekHours_foldl (d : Date) (l : List Record) :
    ∀ acc : ℚ,
      l.foldl
          (fun acc r =>
            if dateOf r.start = d then acc + (r.duration : ℚ) / 3600 else acc)
          acc
        = acc + (daySeconds d l : ℚ) / 3600 := by
  induction l with
  | nil => intro acc; simp [daySeconds]
  | cons r rs ih =>
    intro acc
    by_cases h : dateOf r.start = d <;>
      simp only [List.foldl_cons, daySeconds, h, if_pos, if_neg,
        not_false_iff, ih] <;>
      push_cast <;> ring

/-- Counterexample for C7: in `get_week` the day's `hours` cell is *not* an
integer-seconds sum divided once at the end — the loop accumulates
`duration / 3600` record by record.  For two one-second work records the
accumulator passes through `0, 1/3600, 2/3600`: already after the first
record it holds `1/3600` hours, a value that is no integer count of
seconds (there is no natural number it equals), i.e. the division has
already been applied mid-aggregation. -/
theorem week_hours_accumulated_per_record :
    weekHoursSteps monday (weekWork twoSecLog monday) 0
      = [0, 1/3600, 2/3600]
    ∧ Stats.weekHours twoSecLog monday monday = 2/3600
    ∧ ¬ (∃ n : Nat, (1 : ℚ)/3600 = (n : ℚ)) := by
  refine ⟨?_, ?_, ?_⟩
  · simp [weekHoursSteps, weekWork, twoSecLog, recOneSec, monday, dateOf,
      dateLe]
    norm_num
  · simp [Stats.weekHours, weekWork, twoSecLog, recOneSec, monday, dateOf,
      dateLe]
    norm_num
  rintro ⟨n, hn⟩
  have h1 : ((1 : ℚ)/3600) < 1 := by norm_num
  have h0 : (0 : ℚ) < (1 : ℚ)/3600 := by norm_num
  rw [hn] at h1 h0
  have hn1 : n < 1 := by exact_mod_cast h1
  have hn0 : 0 < n := by exact_mod_cast h0
  omega

/-- C7 (amended): `get_week` accumulates the day's hours record by record
as `duration / 3600` additions rather than summing integer seconds and
dividing once; in exact arithmetic the accumulated per-day value
nevertheless equals the single division
`(sum of that day's integer-second durations) / 3600`. -/
theorem week_hours_equals_single_division (log : List Record)
    (ws d : Date) :
    Stats.weekHours log ws d = (daySeconds d (weekWork log ws) : ℚ) / 3600 := by
  unfold Stats.weekHours
  rw [weekHours_foldl]
  ring

/-- Helper for C8: the filtered duration sum of `get_total` equals the
recursive integer-seconds sum over work records. -/
theorem filter_work_sum (log : List Record) :
    ((log.filter (fun r => r.type == "work")).map (fun r => r.duration)).sum
      = workSeconds log := by
  induction log with
  | nil => rfl
  | cons r rs ih =>
    by_cases h : r.type = "work" <;>
      simp [List.filter_cons, h, workSeconds, ih]

/-- Helper for C8: the filtered length of `get_total` equals the recursive
work-record count. -/
theorem filter_work_length (log : List Record) :
    (log.filter (fun r => r.type == "work")).length = workCount log := by
  induction log with
  | nil => rfl
  | cons r rs ih =>
    by_cases h : r.type = "work"
    · simp [List.filter_cons, h, workCount, ih]
      omega
    · simp [List.filter_cons, h, workCount, ih]

/-- C8: for every log, `get_total` returns exactly
`(sum of the work records' integer-second durations) / 3600` paired with
the number of work records, and `(0, 0)` on an empty log. -/
theorem total_hours_single_division (log : List Record) :
    Stats.getTotal log = ((workSeconds log : ℚ) / 3600, workCount log)
    ∧ Stats.getTotal [] = ((0 : ℚ), 0) := by
  refine ⟨?_, ?_⟩
  · simp only [Stats.getTotal]
    rw [filter_work_sum, filter_work_length]
  · simp [Stats.getTotal]

/-- C9: refuted by the code.  The `except (json.JSONDecodeError,
ValueError)` clause only covers two of the ways a line can be malformed:
text that is not JSON, and a string `'start'` in the wrong format, are
indeed skipped with the remaining lines' records returned (first two
conjuncts).  But a valid-JSON line that is not an object with a string
`'start'` — an empty object, a list, `null`, a number, or an object whose
`'start'` is not a string — raises `KeyError` or `TypeError`, which the
`except` clause does not catch: `read_all` aborts, the well-formed records
after the bad line are lost, and every stats query built on `read_all`
crashes, where the claim says a single bad line is skipped and never
raises. -/
theorem read_all_crashes_on_valid_json_non_record :
    DataStore.readAll
        [LogLine.notJson rawNotJson, LogLine.obj (toWire recMicro)]
      = Except.ok [recMicro]
    ∧ DataStore.readAll
        [LogLine.obj wireBadStart, LogLine.obj (toWire recMicro)]
      = Except.ok [recMicro]
    ∧ DataStore.readAll
        [LogLine.objMissingStart, LogLine.obj (toWire recMicro)]
      = Except.error PyError.keyError
    ∧ DataStore.readAll
        [LogLine.nonObject rawList, LogLine.obj (toWire recMicro)]
      = Except.error PyError.typeError
    ∧ DataStore.readAll [LogLine.objNonStringStart]
      = Except.error PyError.typeError := by
  exact ⟨rfl, rfl, rfl, rfl, rfl⟩

/-- Witness for C10 at a concrete two-task store. -/
theorem toggle_frame_conditions_witness :
    Tasks.toggle storeAbsent keyA = (storeAbsent, false)
    ∧ (Tasks.toggle storePresent keyA).2 = true
    ∧ Tasks.find (Tasks.toggle storePresent keyA).1 keyA
        = some ⟨"alpha", some true, "2024-05-01 09:00:00"⟩
    ∧ Tasks.find (Tasks.toggle storePresent keyA).1 keyB
        = Tasks.find storePresent keyB := by
  have h := toggle_frame_conditions storeAbsent storePresent keyA keyB taskA
    (by decide) (by decide) (by decide)
  exact ⟨h.1, h.2.1, h.2.2.1, h.2.2.2⟩

end Pymodoro
